import Mathlib

/-!
Shallow embedding of the monsoon fuzz command (cmd/fuzz/main.go) and proofs
about its pipeline construction, option validation, redirect policy, and the
worker-pool completion barrier.

External collaborators (the Go standard library and the other packages of the
repository that are not part of these sources: regexp compilation, shell
splitting, URL parsing, Sscanf range parsing, file-system operations) are
modelled as parameters collected in a `RunEnv` structure, or as abstract
success flags, exactly where the code under study calls out to them.
-/

/-- Options mirrors the Options struct of cmd/fuzz/main.go (lines 30-60).
Field defaults mirror the flag defaults registered in AddCommand. Compiled
regular expressions are represented by their pattern strings; tokenized
external command lines by lists of strings. The float64 field
RequestsPerSecond is modelled as a rational number (the code only ever
compares it with zero). -/
structure Options where
  Range : String := ""
  RangeFormat : String := "%d"
  Filename : String := ""
  Logfile : String := ""
  Logdir : String := ""
  Threads : Int := 5
  RequestsPerSecond : Rat := 0
  BufferSize : Int := 100000
  Skip : Int := 0
  Limit : Int := 0
  FollowRedirect : Int := 0
  HideStatusCodes : List Int := []
  HideHeaderSize : List String := []
  HideBodySize : List String := []
  HidePattern : List String := []
  hidePattern : List String := []
  ShowPattern : List String := []
  showPattern : List String := []
  Extract : List String := []
  extract : List String := []
  ExtractPipe : List String := []
  extractPipe : List (List String) := []
  BodyBufferSize : Int := 5

/-- Result of the CheckRedirect callback of an http.Client: nil (follow the
redirect) or the sentinel error http.ErrUseLastResponse (stop and return the
last response as-is). -/
inductive CheckRedirectResult where
  | nil
  | useLastResponse
deriving DecidableEq

/-- CheckRedirect callback installed on each runner's client in startRunners
(main.go lines 311-316): permit the redirect when len(via) is at most
opts.FollowRedirect, otherwise return http.ErrUseLastResponse. -/
def checkRedirect (followRedirect : Int) (viaLen : Nat) : CheckRedirectResult :=
  if (viaLen : Int) ≤ followRedirect then CheckRedirectResult.nil
  else CheckRedirectResult.useLastResponse

/-- compileRegexps (main.go lines 64-75). regexp.Compile belongs to the Go
standard library and is supplied as a function returning none exactly on the
patterns it fails to compile. -/
def compileRegexps (compile : String → Option String) :
    List String → Except String (List String)
  | [] => Except.ok []
  | pat :: rest =>
    match compile pat with
    | none => Except.error ("regexp " ++ pat ++ " failed to compile")
    | some r =>
      match compileRegexps compile rest with
      | Except.error e => Except.error e
      | Except.ok res => Except.ok (r :: res)

/-- splitShell (main.go lines 77-90). shell.Split is an external collaborator
and is supplied as a function returning none when tokenization fails. A
command that splits to fewer than one argument is rejected. -/
def splitShell (split : String → Option (List String)) :
    List String → Except String (List (List String))
  | [] => Except.ok []
  | cmd :: rest =>
    match split cmd with
    | none => Except.error ("cannot split: " ++ cmd)
    | some args =>
      if args.length < 1 then Except.error ("invalid command: " ++ cmd)
      else
        match splitShell split rest with
        | Except.error e => Except.error e
        | Except.ok data => Except.ok (args :: data)

/-- Options.valid (main.go lines 93-119): rejects specifying both a range and
a filename, then compiles the extract patterns, splits the extract-pipe
command lines, and compiles the hide and show patterns, storing each result
in the corresponding lower-case field. -/
def Options.valid (compile : String → Option String)
    (split : String → Option (List String)) (o : Options) : Except String Options :=
  if o.Range ≠ "" ∧ o.Filename ≠ "" then
    Except.error "only one source allowed but both range and filename specified"
  else
    match compileRegexps compile o.Extract with
    | Except.error e => Except.error e
    | Except.ok ext =>
      match splitShell split o.ExtractPipe with
      | Except.error e => Except.error e
      | Except.ok pipes =>
        match compileRegexps compile o.HidePattern with
        | Except.error e => Except.error e
        | Except.ok hides =>
          match compileRegexps compile o.ShowPattern with
          | Except.error e => Except.error e
          | Except.ok shows =>
            Except.ok { o with extract := ext, extractPipe := pipes,
                               hidePattern := hides, showPattern := shows }

/-- Classifier filter stages as constructed by setupResponseFilters
(main.go lines 260-282), carrying their configuration. -/
inductive RFilter where
  | statusCode (codes : List Int)
  | size (headerSize bodySize : List String)
  | rejectPattern (pattern : List String)
  | acceptPattern (pattern : List String)
deriving DecidableEq

/-- splitOnDash splits a list of characters on the dash character, keeping
empty segments, mirroring strings.Split on "-". -/
def splitOnDash : List Char → List (List Char)
  | [] => [[]]
  | c :: rest =>
    if c = '-' then [] :: splitOnDash rest
    else
      match splitOnDash rest with
      | [] => [[c]]
      | g :: gs => (c :: g) :: gs

/-- parseNatDigits parses a non-empty all-digit character sequence as a
natural number. -/
def parseNatDigits (cs : List Char) : Option Nat :=
  if cs ≠ [] ∧ cs.all Char.isDigit then
    some (cs.foldl (fun n c => n * 10 + (c.toNat - 48)) 0)
  else none

/-- Modelled from the spec: the size-spec grammar understood by
response.NewFilterSize (the response package is not part of these sources):
an exact value N, a closed range A-B, an open-lower range A-, or an
open-upper range -B. Returns the optional lower and upper bounds. -/
def parseSizeSpec (s : String) : Option (Option Nat × Option Nat) :=
  match splitOnDash s.toList with
  | [a] => (parseNatDigits a).map fun n => (some n, some n)
  | [a, b] =>
    if a = [] then
      if b = [] then none else (parseNatDigits b).map fun n => (none, some n)
    else if b = [] then (parseNatDigits a).map fun n => (some n, none)
    else
      match parseNatDigits a, parseNatDigits b with
      | some x, some y => some (some x, some y)
      | _, _ => none
  | _ => none

/-- Modelled from the spec: response.NewFilterSize (not part of these
sources) succeeds and yields the size filter exactly when every configured
header-size and body-size spec parses under the spec's grammar. -/
def NewFilterSize (headerSize bodySize : List String) : Except String RFilter :=
  if (headerSize ++ bodySize).all (fun s => (parseSizeSpec s).isSome) then
    Except.ok (RFilter.size headerSize bodySize)
  else Except.error "invalid size spec"

/-- setupResponseFilters (main.go lines 260-282): the status-code filter is
always first; the size filter is appended when any size spec is configured;
the reject-pattern and accept-pattern filters are appended when the
corresponding compiled pattern lists are non-empty. -/
def setupResponseFilters (o : Options) : Except String (List RFilter) :=
  let filters := [RFilter.statusCode o.HideStatusCodes]
  match (if o.HideHeaderSize.length > 0 ∨ o.HideBodySize.length > 0 then
          match NewFilterSize o.HideHeaderSize o.HideBodySize with
          | Except.error e => Except.error e
          | Except.ok f => Except.ok (filters ++ [f])
        else Except.ok filters) with
  | Except.error e => Except.error e
  | Except.ok fs1 =>
    let fs2 := if o.hidePattern.length > 0 then fs1 ++ [RFilter.rejectPattern o.hidePattern] else fs1
    let fs3 := if o.showPattern.length > 0 then fs2 ++ [RFilter.acceptPattern o.showPattern] else fs2
    Except.ok fs3

/-- Symbolic form of the value channel as wired by run (main.go
lines 370-390): the producer's buffered channel, optionally wrapped by the
skip and limit filter stages and by the rate limiter. -/
inductive VChan where
  | source
  | skip (n : Int) (c : VChan)
  | limit (n : Int) (c : VChan)
  | rateLimit (rate : Rat) (c : VChan)
deriving DecidableEq

/-- Symbolic form of the count channel as wired by run: the producer's count
channel, optionally wrapped by the skip and limit count stages and relayed
by the recorder. -/
inductive CChan where
  | source
  | skipCount (n : Int) (c : CChan)
  | limitCount (n : Int) (c : CChan)
  | recorderRelay (c : CChan)
deriving DecidableEq

/-- Symbolic form of the response channel chain handed to the reporter: the
runner pool's fan-in output, wrapped by the Mark stage and optionally by the
recorder relay. -/
inductive RChan where
  | runners (threads : Int) (input : VChan)
  | mark (filters : List RFilter) (c : RChan)
  | recorder (path : String) (c : RChan)
deriving DecidableEq

/-- setupValueFilters (main.go lines 284-298): when Skip > 0 both channels
are wrapped by the skip stage, and when Limit > 0 both results are wrapped
by the limit stage (so limit is outermost, matching program order). -/
def setupValueFilters (o : Options) (valueCh : VChan) (countCh : CChan) : VChan × CChan :=
  let v1 := if o.Skip > 0 then VChan.skip o.Skip valueCh else valueCh
  let c1 := if o.Skip > 0 then CChan.skipCount o.Skip countCh else countCh
  let v2 := if o.Limit > 0 then VChan.limit o.Limit v1 else v1
  let c2 := if o.Limit > 0 then CChan.limitCount o.Limit c1 else c1
  (v2, c2)

/-- hasSkipV reports whether a skip stage occurs in a value channel. -/
def hasSkipV : VChan → Bool
  | VChan.source => false
  | VChan.skip _ _ => true
  | VChan.limit _ c => hasSkipV c
  | VChan.rateLimit _ c => hasSkipV c

/-- hasLimitV reports whether a limit stage occurs in a value channel. -/
def hasLimitV : VChan → Bool
  | VChan.source => false
  | VChan.skip _ c => hasLimitV c
  | VChan.limit _ _ => true
  | VChan.rateLimit _ c => hasLimitV c

/-- hasRateV reports whether a rate-limiter stage occurs in a value
channel. -/
def hasRateV : VChan → Bool
  | VChan.source => false
  | VChan.skip _ c => hasRateV c
  | VChan.limit _ c => hasRateV c
  | VChan.rateLimit _ _ => true

/-- hasSkipC reports whether a skip stage occurs in a count channel. -/
def hasSkipC : CChan → Bool
  | CChan.source => false
  | CChan.skipCount _ _ => true
  | CChan.limitCount _ c => hasSkipC c
  | CChan.recorderRelay c => hasSkipC c

/-- hasLimitC reports whether a limit stage occurs in a count channel. -/
def hasLimitC : CChan → Bool
  | CChan.source => false
  | CChan.skipCount _ c => hasLimitC c
  | CChan.limitCount _ _ => true
  | CChan.recorderRelay c => hasLimitC c

/-- hasRelayC reports whether the recorder relay occurs in a count
channel. -/
def hasRelayC : CChan → Bool
  | CChan.source => false
  | CChan.skipCount _ c => hasRelayC c
  | CChan.limitCount _ c => hasRelayC c
  | CChan.recorderRelay _ => true

/-- hasRecorderR reports whether the recorder stage occurs in a response
channel chain. -/
def hasRecorderR : RChan → Bool
  | RChan.runners _ _ => false
  | RChan.mark _ c => hasRecorderR c
  | RChan.recorder _ _ => true

/-- runnersInput returns the value channel feeding the runner pool at the
bottom of a response channel chain. -/
def runnersInput : RChan → Option VChan
  | RChan.runners _ v => some v
  | RChan.mark _ c => runnersInput c
  | RChan.recorder _ c => runnersInput c

/-- Channel wiring performed by run after the producer is set up (main.go
lines 370-412): skip/limit filters, the optional rate limiter, the runner
pool, Mark, and the optional recorder stage; yields the response channel and
count channel handed to the reporter. -/
def runPipeline (o : Options) (fs : List RFilter) (pfx : String) : RChan × CChan :=
  let vc := setupValueFilters o VChan.source CChan.source
  let valueCh := if o.RequestsPerSecond > 0 then VChan.rateLimit o.RequestsPerSecond vc.1 else vc.1
  let responseCh := RChan.mark fs (RChan.runners o.Threads valueCh)
  if pfx ≠ "" then (RChan.recorder (pfx ++ ".json") responseCh, CChan.recorderRelay vc.2)
  else (responseCh, vc.2)

/-- filepathJoin models filepath.Join as used by logfilePath; path cleaning
is irrelevant to the properties proved here. -/
def filepathJoin (dir fn : String) : String :=
  if dir = "" then fn else dir ++ "/" ++ fn

/-- RunEnv collects the external collaborators of run: regexp compilation,
shell splitting, URL parsing, timestamp formatting, Sscanf range parsing,
and the success of the file-system operations and of the final reporter. -/
structure RunEnv where
  compile : String → Option String
  split : String → Option (List String)
  parseURLHost : String → Option String
  timestamp : String
  parseRange : String → Option (Int × Int)
  openFileOk : Bool
  createLogOk : Bool
  recorderOk : Bool
  reportResult : Except String Unit

/-- logfilePath (main.go lines 174-188): when Logdir is set and Logfile is
empty, the prefix is built from the URL host and a timestamp inside Logdir;
otherwise it is Logfile itself. -/
def logfilePath (env : RunEnv) (o : Options) (inputURL : String) : Except String String :=
  if o.Logdir ≠ "" ∧ o.Logfile = "" then
    match env.parseURLHost inputURL with
    | none => Except.error "invalid URL"
    | some host =>
      Except.ok (filepathJoin o.Logdir ("monsoon_" ++ host ++ "_" ++ env.timestamp))
  else Except.ok o.Logfile

/-- setupTerminal (main.go lines 226-258): creating the .log copy can fail
exactly when a logfile prefix is configured. -/
def setupTerminalModel (env : RunEnv) (pfx : String) : Except String Unit :=
  if pfx ≠ "" then
    if env.createLogOk then Except.ok () else Except.error "create logfile failed"
  else Except.ok ()

/-- setupProducer (main.go lines 190-224): a range spec must scan as
first-last; a filename of - reads standard input; any other filename is
opened (which can fail); with neither source configured run has nothing to
do. -/
def setupProducer (env : RunEnv) (o : Options) : Except String Unit :=
  if o.Range ≠ "" then
    match env.parseRange o.Range with
    | none => Except.error "wrong format for range, expected: first-last"
    | some _ => Except.ok ()
  else if o.Filename = "-" then Except.ok ()
  else if o.Filename ≠ "" then
    if env.openFileOk then Except.ok () else Except.error "open failed"
  else Except.error "neither file nor range specified, nothing to do"

/-- Steps of run (main.go lines 333-418), in program order. startRunners is
the point at which the worker goroutines are started and begin issuing HTTP
requests. -/
inductive Step where
  | checkArgs
  | validOpts
  | logfile
  | terminal
  | responseFilters
  | producerStart
  | startRunners
  | markStage
  | recorderNew
  | reporterRun
deriving DecidableEq

/-- runModel traces run (main.go lines 333-418) as the sequence of steps it
reaches, in program order, together with the value run returns. The recorder
is opened (recorder.New, line 396) only after startRunners (line 390). -/
def runModel (env : RunEnv) (o : Options) (args : List String) :
    List Step × Except String Unit :=
  match args with
  | [] => ([Step.checkArgs], Except.error "last argument needs to be the URL")
  | _ :: _ :: _ => ([Step.checkArgs], Except.error "more than one target URL specified")
  | [url] =>
    match Options.valid env.compile env.split o with
    | Except.error e => ([Step.checkArgs, Step.validOpts], Except.error e)
    | Except.ok o1 =>
      match logfilePath env o1 url with
      | Except.error e => ([Step.checkArgs, Step.validOpts, Step.logfile], Except.error e)
      | Except.ok pfx =>
        match setupTerminalModel env pfx with
        | Except.error e =>
          ([Step.checkArgs, Step.validOpts, Step.logfile, Step.terminal], Except.error e)
        | Except.ok _ =>
          match setupResponseFilters o1 with
          | Except.error e =>
            ([Step.checkArgs, Step.validOpts, Step.logfile, Step.terminal,
              Step.responseFilters], Except.error e)
          | Except.ok _ =>
            match setupProducer env o1 with
            | Except.error e =>
              ([Step.checkArgs, Step.validOpts, Step.logfile, Step.terminal,
                Step.responseFilters, Step.producerStart], Except.error e)
            | Except.ok _ =>
              let steps := [Step.checkArgs, Step.validOpts, Step.logfile, Step.terminal,
                            Step.responseFilters, Step.producerStart, Step.startRunners,
                            Step.markStage]
              if pfx ≠ "" then
                if env.recorderOk then
                  (steps ++ [Step.recorderNew, Step.reporterRun], env.reportResult)
                else
                  (steps ++ [Step.recorderNew], Except.error "recorder: create file failed")
              else (steps ++ [Step.reporterRun], env.reportResult)

/-- isOkE reports whether an Except value is a success. -/
def isOkE {α : Type} : Except String α → Bool
  | Except.ok _ => true
  | Except.error _ => false

/-- preRunnerOk holds when every configuration stage of run that executes
before the worker pool is started succeeds: exactly one URL argument, valid
options, logfile path, terminal setup, response filters, and producer
setup. -/
def preRunnerOk (env : RunEnv) (o : Options) (args : List String) : Bool :=
  match args with
  | [url] =>
    match Options.valid env.compile env.split o with
    | Except.error _ => false
    | Except.ok o1 =>
      match logfilePath env o1 url with
      | Except.error _ => false
      | Except.ok pfx =>
        isOkE (setupTerminalModel env pfx) && isOkE (setupResponseFilters o1) &&
          isOkE (setupProducer env o1)
  | _ => false

/-- numRunners is the number of runner goroutines started by the for loop in
startRunners (main.go line 305): zero when opts.Threads is not positive. -/
def numRunners (threads : Int) : Nat := threads.toNat

/-- PoolState is the synchronization state of startRunners: the number of
live runner goroutines (the WaitGroup counter), whether the shared output
channel has been closed, how many responses have been emitted to it, and how
many values have been consumed from the input channel. -/
structure PoolState where
  running : Nat
  closed : Bool
  emitted : Nat
  consumed : Nat
deriving DecidableEq

/-- poolInit is the state right after the for loop of startRunners: Threads
runners registered via wg.Add(1) before any can finish, the output channel
open, nothing emitted or consumed. -/
def poolInit (threads : Int) : PoolState :=
  { running := numRunners threads, closed := false, emitted := 0, consumed := 0 }

/-- PoolStep enumerates the events of startRunners (main.go lines 300-331):
a live runner consumes a value from the input channel, emits a response to
the output channel, or returns (wg.Done); the closing goroutine closes the
output channel only once wg.Wait observes a zero counter. -/
inductive PoolStep : PoolState → PoolState → Prop where
  | consume (r : Nat) (c : Bool) (e k : Nat) :
      PoolStep ⟨r + 1, c, e, k⟩ ⟨r + 1, c, e, k + 1⟩
  | emit (r : Nat) (c : Bool) (e k : Nat) :
      PoolStep ⟨r + 1, c, e, k⟩ ⟨r + 1, c, e + 1, k⟩
  | finish (r : Nat) (c : Bool) (e k : Nat) :
      PoolStep ⟨r + 1, c, e, k⟩ ⟨r, c, e, k⟩
  | close (e k : Nat) :
      PoolStep ⟨0, false, e, k⟩ ⟨0, true, e, k⟩

/-- PoolReach is reachability of pool states from the initial state by the
events of startRunners. -/
def PoolReach (threads : Int) (s : PoolState) : Prop :=
  Relation.ReflTransGen PoolStep (poolInit threads) s

/-- envRecorderFail is a concrete environment in which every external
operation succeeds except opening the recorder's JSON file. -/
def envRecorderFail : RunEnv :=
  { compile := fun p => some p
    split := fun c => some [c]
    parseURLHost := fun _ => some "h"
    timestamp := "t"
    parseRange := fun _ => some (1, 2)
    openFileOk := true
    createLogOk := true
    recorderOk := false
    reportResult := Except.ok () }

/-- envAllOk is a concrete environment in which every external operation
succeeds. -/
def envAllOk : RunEnv :=
  { compile := fun p => some p
    split := fun c => some [c]
    parseURLHost := fun _ => some "h"
    timestamp := "t"
    parseRange := fun _ => some (1, 2)
    openFileOk := true
    createLogOk := true
    recorderOk := true
    reportResult := Except.ok () }

/-- optsStdinLog is a concrete configuration reading values from standard
input with a logfile configured (so the recorder stage is requested). -/
def optsStdinLog : Options :=
  { Filename := "-", Logfile := "x" }

/-- C1: the redirect-check function installed on each runner's HTTP client
permits a redirect exactly when the number of previously issued requests in
the chain is at most the configured follow-redirect limit, and once exceeded
it returns http.ErrUseLastResponse. -/
theorem checkRedirect_policy (followRedirect : Int) (viaLen : Nat) :
    (checkRedirect followRedirect viaLen = CheckRedirectResult.nil ↔
      (viaLen : Int) ≤ followRedirect) ∧
    (checkRedirect followRedirect viaLen = CheckRedirectResult.useLastResponse ↔
      followRedirect < (viaLen : Int)) := by
  unfold checkRedirect
  constructor
  · split <;> simp_all
  · split <;> simp_all

/-- C3: setupValueFilters installs the skip stage on both channels exactly
when Skip > 0, installs the limit stage exactly when Limit > 0, and with
both non-positive returns the input channels unchanged. -/
theorem setupValueFilters_stages (o : Options) (v : VChan) (c : CChan) :
    (o.Skip ≤ 0 ∧ o.Limit ≤ 0 → setupValueFilters o v c = (v, c)) ∧
    (hasSkipV (setupValueFilters o v c).1 = true ↔ o.Skip > 0 ∨ hasSkipV v = true) ∧
    (hasSkipC (setupValueFilters o v c).2 = true ↔ o.Skip > 0 ∨ hasSkipC c = true) ∧
    (hasLimitV (setupValueFilters o v c).1 = true ↔ o.Limit > 0 ∨ hasLimitV v = true) ∧
    (hasLimitC (setupValueFilters o v c).2 = true ↔ o.Limit > 0 ∨ hasLimitC c = true) := by
  unfold setupValueFilters
  by_cases hs : o.Skip > 0 <;> by_cases hl : o.Limit > 0 <;>
    simp [hs, hl, hasSkipV, hasSkipC, hasLimitV, hasLimitC]

/-- Witness for C3 at a concrete configuration with Skip = 0 and Limit = 0:
the channels pass through unchanged. -/
theorem setupValueFilters_stages_witness :
    setupValueFilters { Skip := 0, Limit := 0 } VChan.source CChan.source =
      (VChan.source, CChan.source) :=
  (setupValueFilters_stages { Skip := 0, Limit := 0 } VChan.source CChan.source).1
    (by constructor <;> decide)

/-- Helper: setupValueFilters never introduces a rate-limiter stage on the
value channel. -/
theorem hasRateV_setupValueFilters (o : Options) (v : VChan) (c : CChan) :
    hasRateV (setupValueFilters o v c).1 = hasRateV v := by
  unfold setupValueFilters
  by_cases hs : o.Skip > 0 <;> by_cases hl : o.Limit > 0 <;> simp [hs, hl, hasRateV]

/-- C4: when RequestsPerSecond is not positive, the value channel handed to
the worker pool is exactly the channel produced by the skip and limit
filters, with no rate-limiter stage interposed. -/
theorem rateLimiter_passthrough (o : Options) (fs : List RFilter) (pfx : String)
    (h : o.RequestsPerSecond ≤ 0) :
    runnersInput (runPipeline o fs pfx).1 =
      some (setupValueFilters o VChan.source CChan.source).1 ∧
    hasRateV (setupValueFilters o VChan.source CChan.source).1 = false := by
  have hr : ¬ o.RequestsPerSecond > 0 := not_lt.mpr h
  constructor
  · unfold runPipeline
    by_cases hp : pfx ≠ "" <;> simp [hp, hr, runnersInput]
  · rw [hasRateV_setupValueFilters]
    rfl

/-- Witness for C4 at the default configuration (RequestsPerSecond = 0): the
pool's input is the filter output and carries no rate limiter. -/
theorem rateLimiter_passthrough_witness :
    runnersInput (runPipeline {} [] "").1 =
      some (setupValueFilters {} VChan.source CChan.source).1 ∧
    hasRateV (setupValueFilters {} VChan.source CChan.source).1 = false :=
  rateLimiter_passthrough {} [] "" (le_refl 0)

/-- Helper: the list of filters produced by a successful setupResponseFilters
is the status-code filter followed by the optional size, reject-pattern and
accept-pattern filters, in that order. -/
theorem setupResponseFilters_ok_eq (o : Options) (fs : List RFilter)
    (h : setupResponseFilters o = Except.ok fs) :
    fs = [RFilter.statusCode o.HideStatusCodes]
      ++ (if o.HideHeaderSize.length > 0 ∨ o.HideBodySize.length > 0 then
            [RFilter.size o.HideHeaderSize o.HideBodySize] else [])
      ++ (if o.hidePattern.length > 0 then [RFilter.rejectPattern o.hidePattern] else [])
      ++ (if o.showPattern.length > 0 then [RFilter.acceptPattern o.showPattern] else []) := by
  unfold setupResponseFilters NewFilterSize at h
  by_cases h1 : o.HideHeaderSize.length > 0 ∨ o.HideBodySize.length > 0 <;>
    by_cases h2 : ((o.HideHeaderSize ++ o.HideBodySize).all fun s => (parseSizeSpec s).isSome) <;>
      by_cases h3 : o.hidePattern.length > 0 <;>
        by_cases h4 : o.showPattern.length > 0 <;>
          simp_all

/-- C5: the classifier's filter chain is constructed in exactly the order
status-code hide filter, header/body size filter, hide-pattern (reject)
filter, show-pattern (accept) filter. -/
theorem setupResponseFilters_order (o : Options) (fs : List RFilter)
    (h : setupResponseFilters o = Except.ok fs) :
    fs = [RFilter.statusCode o.HideStatusCodes]
      ++ (if o.HideHeaderSize.length > 0 ∨ o.HideBodySize.length > 0 then
            [RFilter.size o.HideHeaderSize o.HideBodySize] else [])
      ++ (if o.hidePattern.length > 0 then [RFilter.rejectPattern o.hidePattern] else [])
      ++ (if o.showPattern.length > 0 then [RFilter.acceptPattern o.showPattern] else []) :=
  setupResponseFilters_ok_eq o fs h

/-- Witness for C5 at a concrete configuration with one size spec, one hide
pattern and one show pattern. -/
theorem setupResponseFilters_order_witness :
    setupResponseFilters
        { HideHeaderSize := ["100-200"], hidePattern := ["x"], showPattern := ["y"] } =
      Except.ok [RFilter.statusCode [], RFilter.size ["100-200"] [],
        RFilter.rejectPattern ["x"], RFilter.acceptPattern ["y"]] ∧
    [RFilter.statusCode ([] : List Int), RFilter.size ["100-200"] [],
        RFilter.rejectPattern ["x"], RFilter.acceptPattern ["y"]] =
      [RFilter.statusCode ([] : List Int)]
        ++ (if (["100-200"] : List String).length > 0 ∨ ([] : List String).length > 0 then
              [RFilter.size ["100-200"] []] else [])
        ++ (if (["x"] : List String).length > 0 then [RFilter.rejectPattern ["x"]] else [])
        ++ (if (["y"] : List String).length > 0 then [RFilter.acceptPattern ["y"]] else []) :=
  ⟨rfl, setupResponseFilters_order
    { HideHeaderSize := ["100-200"], hidePattern := ["x"], showPattern := ["y"] }
    [RFilter.statusCode [], RFilter.size ["100-200"] [],
      RFilter.rejectPattern ["x"], RFilter.acceptPattern ["y"]] rfl⟩

/-- C10: the status-code filter is always present (even with an empty
hide-status list) and is first; the size filter is present exactly when a
size spec is configured; the reject and accept pattern filters are present
exactly when the corresponding patterns are configured. -/
theorem setupResponseFilters_presence (o : Options) (fs : List RFilter)
    (h : setupResponseFilters o = Except.ok fs) :
    fs.head? = some (RFilter.statusCode o.HideStatusCodes) ∧
    (RFilter.size o.HideHeaderSize o.HideBodySize ∈ fs ↔
      o.HideHeaderSize.length > 0 ∨ o.HideBodySize.length > 0) ∧
    (RFilter.rejectPattern o.hidePattern ∈ fs ↔ o.hidePattern.length > 0) ∧
    (RFilter.acceptPattern o.showPattern ∈ fs ↔ o.showPattern.length > 0) := by
  have he := setupResponseFilters_ok_eq o fs h
  subst he
  refine ⟨rfl, ?_, ?_, ?_⟩ <;>
    by_cases h1 : o.HideHeaderSize.length > 0 ∨ o.HideBodySize.length > 0 <;>
      by_cases h3 : o.hidePattern.length > 0 <;>
        by_cases h4 : o.showPattern.length > 0 <;>
          simp_all

/-- Witness for C10 at the default configuration: only the status-code
filter (with an empty list) is present. -/
theorem setupResponseFilters_presence_witness :
    setupResponseFilters ({} : Options) = Except.ok [RFilter.statusCode []] ∧
    ([RFilter.statusCode ([] : List Int)].head? = some (RFilter.statusCode ([] : List Int)) ∧
      (RFilter.size [] [] ∈ [RFilter.statusCode ([] : List Int)] ↔
        ([] : List String).length > 0 ∨ ([] : List String).length > 0) ∧
      (RFilter.rejectPattern [] ∈ [RFilter.statusCode ([] : List Int)] ↔
        ([] : List String).length > 0) ∧
      (RFilter.acceptPattern [] ∈ [RFilter.statusCode ([] : List Int)] ↔
        ([] : List String).length > 0)) :=
  ⟨rfl, setupResponseFilters_presence ({} : Options) [RFilter.statusCode []] rfl⟩

/-- Helper: setupValueFilters never introduces a recorder relay on the count
channel. -/
theorem hasRelayC_setupValueFilters (o : Options) (v : VChan) (c : CChan) :
    hasRelayC (setupValueFilters o v c).2 = hasRelayC c := by
  unfold setupValueFilters
  by_cases hs : o.Skip > 0 <;> by_cases hl : o.Limit > 0 <;> simp [hs, hl, hasRelayC]

/-- C6: the recorder stage relays both the response channel and the count
channel exactly when the computed logfile prefix is non-empty, and the
prefix computed by logfilePath is non-empty exactly when Logfile is set or
Logdir is set (with Logfile empty). -/
theorem recorder_iff_logfile (env : RunEnv) (o : Options) (url pfx : String)
    (fs : List RFilter) :
    (logfilePath env o url = Except.ok pfx →
      (pfx ≠ "" ↔ (o.Logfile ≠ "" ∨ o.Logdir ≠ ""))) ∧
    (hasRecorderR (runPipeline o fs pfx).1 = true ↔ pfx ≠ "") ∧
    (hasRelayC (runPipeline o fs pfx).2 = true ↔ pfx ≠ "") := by
  refine ⟨?_, ?_, ?_⟩
  · intro h
    unfold logfilePath at h
    by_cases hcond : o.Logdir ≠ "" ∧ o.Logfile = ""
    · rw [if_pos hcond] at h
      cases hu : env.parseURLHost url with
      | none =>
        rw [hu] at h
        simp at h
      | some host =>
        rw [hu] at h
        simp only [Except.ok.injEq] at h
        have hj : pfx = o.Logdir ++ "/" ++ ("monsoon_" ++ host ++ "_" ++ env.timestamp) := by
          rw [← h]
          unfold filepathJoin
          rw [if_neg hcond.1]
        constructor
        · intro _
          exact Or.inr hcond.1
        · intro _ hemp
          have hlen : pfx.length = 0 := by rw [hemp]; rfl
          rw [hj] at hlen
          simp [String.length_append] at hlen
          exact absurd hlen.1.2 (by decide)
    · rw [if_neg hcond] at h
      simp only [Except.ok.injEq] at h
      subst h
      constructor
      · intro hpfx
        exact Or.inl hpfx
      · intro hor
        rcases hor with h1 | h1
        · exact h1
        · intro hemp
          exact hcond ⟨h1, hemp⟩
  · unfold runPipeline
    by_cases hp : pfx ≠ "" <;> simp [hp, hasRecorderR]
  · unfold runPipeline
    by_cases hp : pfx ≠ "" <;>
      simp [hp, hasRelayC, hasRelayC_setupValueFilters]

/-- Witness for C6 at a concrete configuration with Logfile set: the prefix
is non-empty and the recorder stage is present on both channels. -/
theorem recorder_iff_logfile_witness :
    (("x" : String) ≠ "" ↔ ((optsStdinLog.Logfile : String) ≠ "" ∨ optsStdinLog.Logdir ≠ "")) ∧
    (hasRecorderR (runPipeline optsStdinLog [] "x").1 = true ↔ ("x" : String) ≠ "") ∧
    (hasRelayC (runPipeline optsStdinLog [] "x").2 = true ↔ ("x" : String) ≠ "") :=
  ⟨(recorder_iff_logfile envAllOk optsStdinLog "u" "x" []).1 rfl,
   (recorder_iff_logfile envAllOk optsStdinLog "u" "x" []).2.1,
   (recorder_iff_logfile envAllOk optsStdinLog "u" "x" []).2.2⟩


/-- Helper: when compileRegexps fails, some pattern fails to compile. -/
theorem compileRegexps_error_mem (compile : String → Option String) :
    ∀ (ps : List String) (e : String), compileRegexps compile ps = Except.error e →
      ∃ p ∈ ps, compile p = none := by
  intro ps
  induction ps with
  | nil =>
    intro e h
    simp [compileRegexps] at h
  | cons p rest ih =>
    intro e h
    cases hc : compile p with
    | none => exact ⟨p, List.mem_cons_self p rest, hc⟩
    | some r =>
      simp only [compileRegexps, hc] at h
      cases hr : compileRegexps compile rest with
      | error e2 =>
        obtain ⟨q, hq, hqc⟩ := ih e2 hr
        exact ⟨q, List.mem_cons_of_mem _ hq, hqc⟩
      | ok res =>
        rw [hr] at h
        simp at h

/-- Helper: when compileRegexps succeeds, every pattern compiles. -/
theorem compileRegexps_ok_mem (compile : String → Option String) :
    ∀ (ps : List String) (v : List String), compileRegexps compile ps = Except.ok v →
      ∀ p ∈ ps, ∃ r, compile p = some r := by
  intro ps
  induction ps with
  | nil =>
    intro v h p hp
    simp at hp
  | cons q rest ih =>
    intro v h p hp
    cases hc : compile q with
    | none =>
      simp only [compileRegexps, hc] at h
      simp at h
    | some r =>
      simp only [compileRegexps, hc] at h
      cases hr : compileRegexps compile rest with
      | error e =>
        rw [hr] at h
        simp at h
      | ok res =>
        rcases List.mem_cons.mp hp with hpq | hpr
        · exact ⟨r, hpq ▸ hc⟩
        · exact ih res hr p hpr

/-- Helper: when splitShell fails, some command cannot be tokenized or
tokenizes to zero arguments. -/
theorem splitShell_error_mem (split : String → Option (List String)) :
    ∀ (cs : List String) (e : String), splitShell split cs = Except.error e →
      ∃ c ∈ cs, split c = none ∨ split c = some [] := by
  intro cs
  induction cs with
  | nil =>
    intro e h
    simp [splitShell] at h
  | cons cmd rest ih =>
    intro e h
    cases hs : split cmd with
    | none => exact ⟨cmd, List.mem_cons_self cmd rest, Or.inl hs⟩
    | some args =>
      cases args with
      | nil => exact ⟨cmd, List.mem_cons_self cmd rest, Or.inr hs⟩
      | cons a as =>
        simp only [splitShell, hs] at h
        rw [if_neg (by simp)] at h
        cases hr : splitShell split rest with
        | error e2 =>
          obtain ⟨q, hq, hqc⟩ := ih e2 hr
          exact ⟨q, List.mem_cons_of_mem _ hq, hqc⟩
        | ok data =>
          rw [hr] at h
          simp at h

/-- Helper: when splitShell succeeds, every command tokenizes to at least
one argument. -/
theorem splitShell_ok_mem (split : String → Option (List String)) :
    ∀ (cs : List String) (v : List (List String)), splitShell split cs = Except.ok v →
      ∀ c ∈ cs, ∃ a as, split c = some (a :: as) := by
  intro cs
  induction cs with
  | nil =>
    intro v h c hc
    simp at hc
  | cons cmd rest ih =>
    intro v h c hc
    cases hs : split cmd with
    | none =>
      simp only [splitShell, hs] at h
      simp at h
    | some args =>
      cases args with
      | nil =>
        simp only [splitShell, hs] at h
        rw [if_pos (by simp)] at h
        simp at h
      | cons a as =>
        simp only [splitShell, hs] at h
        rw [if_neg (by simp)] at h
        cases hr : splitShell split rest with
        | error e =>
          rw [hr] at h
          simp at h
        | ok data =>
          rcases List.mem_cons.mp hc with hcq | hcr
          · exact ⟨a, as, hcq ▸ hs⟩
          · exact ih data hr c hcr

/-- C7: Options.valid returns an error exactly when both a range and a
filename are specified, or an extract, hide-pattern or show-pattern regex
fails to compile, or an extract-pipe command fails shell-splitting or splits
to zero arguments; on success it stores the compiled forms. -/
theorem Options_valid_characterization (compile : String → Option String)
    (split : String → Option (List String)) (o : Options) :
    (isOkE (Options.valid compile split o) = false ↔
      (o.Range ≠ "" ∧ o.Filename ≠ "") ∨
      (∃ p ∈ o.Extract, compile p = none) ∨
      (∃ c ∈ o.ExtractPipe, split c = none ∨ split c = some []) ∨
      (∃ p ∈ o.HidePattern, compile p = none) ∨
      (∃ p ∈ o.ShowPattern, compile p = none)) ∧
    (∀ o1, Options.valid compile split o = Except.ok o1 →
      compileRegexps compile o.Extract = Except.ok o1.extract ∧
      splitShell split o.ExtractPipe = Except.ok o1.extractPipe ∧
      compileRegexps compile o.HidePattern = Except.ok o1.hidePattern ∧
      compileRegexps compile o.ShowPattern = Except.ok o1.showPattern) := by
  by_cases hrf : o.Range ≠ "" ∧ o.Filename ≠ ""
  · have hv : Options.valid compile split o =
        Except.error "only one source allowed but both range and filename specified" := by
      unfold Options.valid
      rw [if_pos hrf]
    refine ⟨⟨fun _ => Or.inl hrf, fun _ => by rw [hv]; rfl⟩, ?_⟩
    intro o1 h
    rw [hv] at h
    exact absurd h (by simp)
  · cases h1 : compileRegexps compile o.Extract with
    | error e1 =>
      have hv : Options.valid compile split o = Except.error e1 := by
        unfold Options.valid
        rw [if_neg hrf, h1]
      refine ⟨⟨fun _ => Or.inr (Or.inl (compileRegexps_error_mem compile o.Extract e1 h1)),
        fun _ => by rw [hv]; rfl⟩, ?_⟩
      intro o1 h
      rw [hv] at h
      exact absurd h (by simp)
    | ok ext =>
      cases h2 : splitShell split o.ExtractPipe with
      | error e2 =>
        have hv : Options.valid compile split o = Except.error e2 := by
          unfold Options.valid
          rw [if_neg hrf, h1, h2]
        refine ⟨⟨fun _ =>
          Or.inr (Or.inr (Or.inl (splitShell_error_mem split o.ExtractPipe e2 h2))),
          fun _ => by rw [hv]; rfl⟩, ?_⟩
        intro o1 h
        rw [hv] at h
        exact absurd h (by simp)
      | ok pipes =>
        cases h3 : compileRegexps compile o.HidePattern with
        | error e3 =>
          have hv : Options.valid compile split o = Except.error e3 := by
            unfold Options.valid
            rw [if_neg hrf, h1, h2, h3]
          refine ⟨⟨fun _ => Or.inr (Or.inr (Or.inr (Or.inl
            (compileRegexps_error_mem compile o.HidePattern e3 h3)))),
            fun _ => by rw [hv]; rfl⟩, ?_⟩
          intro o1 h
          rw [hv] at h
          exact absurd h (by simp)
        | ok hides =>
          cases h4 : compileRegexps compile o.ShowPattern with
          | error e4 =>
            have hv : Options.valid compile split o = Except.error e4 := by
              unfold Options.valid
              rw [if_neg hrf, h1, h2, h3, h4]
            refine ⟨⟨fun _ => Or.inr (Or.inr (Or.inr (Or.inr
              (compileRegexps_error_mem compile o.ShowPattern e4 h4)))),
              fun _ => by rw [hv]; rfl⟩, ?_⟩
            intro o1 h
            rw [hv] at h
            exact absurd h (by simp)
          | ok shows =>
            have hv : Options.valid compile split o =
                Except.ok { o with extract := ext, extractPipe := pipes,
                                   hidePattern := hides, showPattern := shows } := by
              unfold Options.valid
              rw [if_neg hrf, h1, h2, h3, h4]
            constructor
            · constructor
              · intro hfalse
                rw [hv] at hfalse
                exact absurd hfalse (by simp [isOkE])
              · intro hrhs
                rcases hrhs with h | h | h | h | h
                · exact absurd h hrf
                · obtain ⟨p, hp, hpc⟩ := h
                  obtain ⟨r, hr⟩ := compileRegexps_ok_mem compile o.Extract ext h1 p hp
                  rw [hpc] at hr
                  exact absurd hr (by simp)
                · obtain ⟨c, hcm, hcc⟩ := h
                  obtain ⟨a, as, hr⟩ := splitShell_ok_mem split o.ExtractPipe pipes h2 c hcm
                  rcases hcc with hcc | hcc <;> rw [hcc] at hr <;> simp at hr
                · obtain ⟨p, hp, hpc⟩ := h
                  obtain ⟨r, hr⟩ := compileRegexps_ok_mem compile o.HidePattern hides h3 p hp
                  rw [hpc] at hr
                  exact absurd hr (by simp)
                · obtain ⟨p, hp, hpc⟩ := h
                  obtain ⟨r, hr⟩ := compileRegexps_ok_mem compile o.ShowPattern shows h4 p hp
                  rw [hpc] at hr
                  exact absurd hr (by simp)
            · intro o1 h
              rw [hv] at h
              simp only [Except.ok.injEq] at h
              subst h
              refine ⟨?_, ?_, ?_, ?_⟩ <;> simp [h1, h2, h3, h4]

/-- Witness for C7: a pattern the compiler rejects makes valid fail, and at
a successful configuration the compiled extract list is stored. -/
theorem Options_valid_characterization_witness :
    isOkE (Options.valid (fun p => if p = "bad" then none else some p)
      (fun c => some [c]) { Extract := ["bad"] }) = false ∧
    compileRegexps (fun p => some p) ({ Extract := ["a"] } : Options).Extract =
      Except.ok ({ Extract := ["a"], extract := ["a"] } : Options).extract :=
  ⟨(Options_valid_characterization (fun p => if p = "bad" then none else some p)
      (fun c => some [c]) { Extract := ["bad"] }).1.mpr
      (Or.inr (Or.inl ⟨"bad", by simp, by simp⟩)),
   ((Options_valid_characterization (fun p => some p) (fun c => some [c])
      { Extract := ["a"] }).2 { Extract := ["a"], extract := ["a"] } rfl).1⟩

/-- C8: the worker pool's shared output channel is never closed while any
runner is still live: in every reachable synchronization state of
startRunners, a closed output channel implies a zero WaitGroup counter. -/
theorem pool_close_barrier (threads : Int) (s : PoolState)
    (h : PoolReach threads s) (hc : s.closed = true) : s.running = 0 := by
  unfold PoolReach at h
  revert hc
  induction h with
  | refl =>
    intro hc
    simp [poolInit] at hc
  | tail hr hstep ih =>
    intro hc
    cases hstep with
    | consume r c e k => exact absurd (ih hc) (by simp)
    | emit r c e k => exact absurd (ih hc) (by simp)
    | finish r c e k =>
      exact absurd (ih hc) (by simp)
    | close e k => rfl

/-- Witness for C8: with one runner, the state reached by the runner
finishing and the pool closing the output satisfies the barrier. -/
theorem pool_close_barrier_witness : (⟨0, true, 0, 0⟩ : PoolState).running = 0 :=
  pool_close_barrier 1 ⟨0, true, 0, 0⟩
    (Relation.ReflTransGen.tail
      (Relation.ReflTransGen.tail Relation.ReflTransGen.refl (PoolStep.finish 0 false 0 0))
      (PoolStep.close 0 0)) rfl

/-- C9: with a non-positive thread count, startRunners starts no workers,
the close of the output channel is immediately enabled, and every reachable
state has consumed no value and emitted no response. -/
theorem pool_zero_threads (threads : Int) (h : threads ≤ 0) :
    numRunners threads = 0 ∧
    PoolStep (poolInit threads) { running := 0, closed := true, emitted := 0, consumed := 0 } ∧
    ∀ s, PoolReach threads s → s.emitted = 0 ∧ s.consumed = 0 ∧ s.running = 0 := by
  have hn : numRunners threads = 0 := Int.toNat_of_nonpos h
  have hinit : poolInit threads = ⟨0, false, 0, 0⟩ := by
    simp [poolInit, hn]
  refine ⟨hn, ?_, ?_⟩
  · rw [hinit]
    exact PoolStep.close 0 0
  · intro s hs
    unfold PoolReach at hs
    induction hs with
    | refl => simp [hinit]
    | tail hr hstep ih =>
      cases hstep with
      | consume r c e k => exact absurd ih.2.2 (by simp)
      | emit r c e k => exact absurd ih.2.2 (by simp)
      | finish r c e k => exact absurd ih.2.2 (by simp)
      | close e k => exact ih

/-- Witness for C9 at thread count zero. -/
theorem pool_zero_threads_witness :
    numRunners 0 = 0 ∧
    PoolStep (poolInit 0) { running := 0, closed := true, emitted := 0, consumed := 0 } :=
  ⟨(pool_zero_threads 0 (le_refl 0)).1, (pool_zero_threads 0 (le_refl 0)).2.1⟩

/-- C2 (amended): the worker pool is started exactly when every
configuration stage before it succeeds, any of those earlier configuration
errors aborts the run before startRunners, and a recorder-open failure is
fatal but occurs only after the runners have been started. -/
theorem run_config_errors_amended (env : RunEnv) (o : Options) (args : List String) :
    (Step.startRunners ∈ (runModel env o args).1 ↔ preRunnerOk env o args = true) ∧
    (preRunnerOk env o args = false → ∃ e, (runModel env o args).2 = Except.error e) ∧
    (env.recorderOk = false → Step.recorderNew ∈ (runModel env o args).1 →
      (∃ e, (runModel env o args).2 = Except.error e) ∧
        Step.startRunners ∈ (runModel env o args).1) := by
  cases args with
  | nil => refine ⟨?_, ?_, ?_⟩ <;> simp [runModel, preRunnerOk]
  | cons url tl =>
    cases tl with
    | cons b t2 => refine ⟨?_, ?_, ?_⟩ <;> simp [runModel, preRunnerOk]
    | nil =>
      cases h1 : Options.valid env.compile env.split o with
      | error e1 => refine ⟨?_, ?_, ?_⟩ <;> simp [runModel, preRunnerOk, h1]
      | ok o1 =>
        cases h2 : logfilePath env o1 url with
        | error e2 => refine ⟨?_, ?_, ?_⟩ <;> simp [runModel, preRunnerOk, h1, h2]
        | ok pfx =>
          cases h3 : setupTerminalModel env pfx with
          | error e3 =>
            refine ⟨?_, ?_, ?_⟩ <;> simp [runModel, preRunnerOk, h1, h2, h3, isOkE]
          | ok u3 =>
            cases h4 : setupResponseFilters o1 with
            | error e4 =>
              refine ⟨?_, ?_, ?_⟩ <;> simp [runModel, preRunnerOk, h1, h2, h3, h4, isOkE]
            | ok fs4 =>
              cases h5 : setupProducer env o1 with
              | error e5 =>
                refine ⟨?_, ?_, ?_⟩ <;>
                  simp [runModel, preRunnerOk, h1, h2, h3, h4, h5, isOkE]
              | ok u5 =>
                by_cases hp : pfx ≠ ""
                · cases hrec : env.recorderOk with
                  | false =>
                    refine ⟨?_, ?_, ?_⟩ <;>
                      simp [runModel, preRunnerOk, h1, h2, h3, h4, h5, hp, hrec, isOkE]
                  | true =>
                    refine ⟨?_, ?_, ?_⟩ <;>
                      simp [runModel, preRunnerOk, h1, h2, h3, h4, h5, hp, hrec, isOkE]
                · refine ⟨?_, ?_, ?_⟩ <;>
                    simp [runModel, preRunnerOk, h1, h2, h3, h4, h5, hp, isOkE]

/-- Witness for C2 (amended) at a concrete configuration whose recorder
open fails: run returns an error even though the runners were started. -/
theorem run_config_errors_amended_witness :
    (∃ e, (runModel envRecorderFail optsStdinLog ["u"]).2 = Except.error e) ∧
    Step.startRunners ∈ (runModel envRecorderFail optsStdinLog ["u"]).1 :=
  (run_config_errors_amended envRecorderFail optsStdinLog ["u"]).2.2 rfl (by decide)

/-- Counterexample for C2 as stated: with every earlier stage succeeding and
the recorder's JSON file failing to open, run aborts with a configuration
error, yet startRunners has already been reached, so the abort does not
precede the start of HTTP activity. -/
theorem run_recorder_open_after_start :
    (runModel envRecorderFail optsStdinLog ["u"]).2 =
      Except.error "recorder: create file failed" ∧
    Step.startRunners ∈ (runModel envRecorderFail optsStdinLog ["u"]).1 := by
  constructor
  · rfl
  · decide
